import Mathlib

/-!
A verification development for the PDF book-extraction pipeline
(`pdf_extractor`).  The Python sources are shallowly embedded: Python
floats become exact rationals (`ℚ`), Python lists become `List`, Python
strings become `String`, and fallible or optional values become `Option`.
Each definition carries a comment pointing at the source function it
embeds.
-/

namespace PdfExtractor

/-! ## String helpers

Embeddings of the Python string primitives used by the analyzers:
`str.split()` (whitespace split discarding empties), `str.lower()`
(ASCII case folding, which is all the sources exercise), and substring
containment (`needle in hay`).  -/

/-- Word accumulator for `splitWords`: `cur` holds the current word
reversed. -/
def splitWordsAux (cur : List Char) : List Char → List (List Char)
  | [] => if cur = [] then [] else [cur.reverse]
  | c :: rest =>
    if c.isWhitespace then
      if cur = [] then splitWordsAux [] rest else cur.reverse :: splitWordsAux [] rest
    else splitWordsAux (c :: cur) rest

/-- Python `str.split()` with no argument: split on whitespace runs,
discarding empty fragments.  Used for all word counts in the sources. -/
def splitWords (s : String) : List String :=
  (splitWordsAux [] s.toList).map String.mk

/-- Python `str.strip()` on a character list. -/
def trimChars (l : List Char) : List Char :=
  ((l.dropWhile Char.isWhitespace).reverse.dropWhile Char.isWhitespace).reverse

/-- Python `str.strip()`. -/
def stripStr (s : String) : String :=
  String.mk (trimChars s.toList)

/-- Python `str.lower()` (ASCII case folding). -/
def toLowerStr (s : String) : String :=
  String.mk (s.toList.map Char.toLower)

/-- `needle` occurs at the head of `hay`. -/
def isPrefixList : List Char → List Char → Bool
  | [], _ => true
  | _ :: _, [] => false
  | a :: as, b :: bs => a = b && isPrefixList as bs

/-- `needle` occurs somewhere inside `hay` (Python `needle in hay`). -/
def listHasInfix (needle : List Char) : List Char → Bool
  | [] => needle.isEmpty
  | c :: rest => isPrefixList needle (c :: rest) || listHasInfix needle rest

/-- Python `needle in hay` on strings. -/
def containsSub (hay needle : String) : Bool :=
  listHasInfix needle.toList hay.toList

/-! ## Citation processor (`analyzers/citation_processor.py`)

`Citation` keeps the fields of the pydantic model that the cited code
reads or writes (`id`, `type`, `content`, `page_number`). -/

/-- `CitationType` enum (`models/extraction_models.py`). -/
inductive CitationType where
  | footnote
  | endnote
  | inline
  | bibliography
deriving DecidableEq, Repr

/-- The `Citation` model (`models/extraction_models.py`). -/
structure Citation where
  id : String
  ctype : CitationType
  content : String
  pageNumber : Int
deriving DecidableEq, Repr

/-- Regex `^\d+$` from `CitationProcessor._is_false_positive`, applied to the
(already stripped) lowered content: the whole string is one or more digits. -/
def matchesBareNumber (s : String) : Bool :=
  s ≠ "" && s.toList.all Char.isDigit

/-- Regex `^[A-Z]$` from `_is_false_positive`.  It is tested against
`content.lower()`, so for ASCII input it can never fire; it is kept verbatim. -/
def matchesSingleUpper (s : String) : Bool :=
  match s.toList with
  | [c] => 'A' ≤ c && c ≤ 'Z'
  | _ => false

/-- After at least one whitespace character there must be a digit:
the `\s+\d` tail shared by the `^see\s+`-style patterns. -/
def digitAfterWs : List Char → Bool
  | [] => false
  | c :: r => if c.isWhitespace then digitAfterWs r else c.isDigit

/-- Regex `^see\s+` from `_is_false_positive` (prefix match). -/
def matchesSeeRef (s : String) : Bool :=
  match s.toList with
  | 's' :: 'e' :: 'e' :: c :: _ => c.isWhitespace
  | _ => false

/-- Regex `^page\s+\d+` from `_is_false_positive` (prefix match). -/
def matchesPageRef (s : String) : Bool :=
  match s.toList with
  | 'p' :: 'a' :: 'g' :: 'e' :: c :: r => c.isWhitespace && digitAfterWs (c :: r)
  | _ => false

/-- `CitationProcessor._is_false_positive`: the content (lowered) matches one
of the known false-positive shapes. -/
def isFalsePositive (content : String) : Bool :=
  let l := toLowerStr content
  matchesBareNumber l || matchesSingleUpper l || matchesSeeRef l || matchesPageRef l

/-- `CitationProcessor._validate_citations`: drop citations whose stripped
content is shorter than 3 characters, strip the content of the survivors,
drop the false-positive shapes, keep everything else in order. -/
def validateCitations (citations : List Citation) : List Citation :=
  citations.foldr
    (fun c acc =>
      if (stripStr c.content).length < 3 then acc
      else
        let c' := { c with content := stripStr c.content }
        if isFalsePositive c'.content then acc else c' :: acc)
    []

/-- The per-citation decision made by `_validate_citations`, as one function:
`none` when the citation is dropped, `some` of the stripped citation when kept.
Used to state that validation is a per-item filter that never deduplicates. -/
def validateOneCitation (c : Citation) : Option Citation :=
  if (stripStr c.content).length < 3 then none
  else if isFalsePositive (stripStr c.content) then none
  else some { c with content := stripStr c.content }

/-- `CitationProcessor._remove_duplicate_citations` (called only from
`_extract_mixed_citations`): keep the first citation carrying each exact
content. -/
def removeDuplicateCitations (citations : List Citation) : List Citation :=
  go [] citations
where
  go (seen : List String) : List Citation → List Citation
    | [] => []
    | c :: rest =>
      if seen.contains c.content then go seen rest
      else c :: go (c.content :: seen) rest

/-- `CitationStyleDetector.detect_citation_style`, lines 279-286: the final
decision cascade over the three signature-pattern match counts (`apa_count`,
`mla_count`, `ieee_count` are the numbers of matches of the APA/MLA/IEEE
signature regexes in the sampled text; the regex counting itself is not
re-embedded, the cascade is verbatim). -/
def detectCitationStyle (apaCount mlaCount ieeeCount : Nat) : String :=
  if apaCount > mlaCount ∧ apaCount > ieeeCount ∧ apaCount > 2 then "apa"
  else if mlaCount > ieeeCount ∧ mlaCount > 2 then "mla"
  else if ieeeCount > 2 then "ieee"
  else "mixed"

/-! ## Chapter detection (`analyzers/chapter_detection.py`)

`Chapter` keeps the fields the cited code reads or writes; `id` (a fresh
`uuid4`) and `summary` (always `""`) are omitted as they carry no
information the claims touch. -/

/-- The `Chapter` model (`models/extraction_models.py`), restricted to the
fields used by detection, consensus and validation. -/
structure Chapter where
  number : Nat
  title : String
  pageNumber : Int
  wordCount : Nat
  confidence : ℚ
deriving DecidableEq, Repr

/-- A text block as consumed by chapter validation: its text and its
(1-based) page number. -/
structure TextBlock where
  text : String
  pageNumber : Int
deriving DecidableEq, Repr

/-- The ephemeral vote dictionaries built in `_build_consensus`:
`chapter`, `algorithm`, `weight`, `weighted_confidence`. -/
structure DetectionVote where
  chapter : Chapter
  algorithm : String
  weight : ℚ
  weightedConfidence : ℚ
deriving DecidableEq, Repr

/-- The pooling loop of `_build_consensus`: every chapter of every algorithm
becomes a vote with `weighted_confidence = chapter.confidence * weight`. -/
def poolVotes (algorithmResults : List (String × List Chapter × ℚ)) : List DetectionVote :=
  algorithmResults.flatMap (fun r =>
    r.2.1.map (fun ch =>
      { chapter := ch
        algorithm := r.1
        weight := r.2.2
        weightedConfidence := ch.confidence * r.2.2 }))

/-- Stable insertion of one element into a key-sorted list: the new element
goes after every element whose key is less than or equal to its own.  -/
def insertByKey {α : Type} (key : α → Int) (x : α) : List α → List α
  | [] => [x]
  | y :: ys => if key x < key y then x :: y :: ys else y :: insertByKey key x ys

/-- Stable sort by an integer key.  Python's `list.sort` / `sorted` are
stable sorts, and any two stable sorts by the same key agree, so this
insertion sort is extensionally the sort used by the source. -/
def stableSortByKey {α : Type} (key : α → Int) (l : List α) : List α :=
  l.foldl (fun acc x => insertByKey key x acc) []

/-- The grouping loop of `_group_chapters_by_proximity`, after sorting:
`cur` is the last vote appended to the current group, `curRest` the rest of
the current group in reverse order. -/
def groupLoop (proximity : Int) (cur : DetectionVote) (curRest : List DetectionVote) :
    List DetectionVote → List (List DetectionVote)
  | [] => [(cur :: curRest).reverse]
  | v :: vs =>
    if v.chapter.pageNumber - cur.chapter.pageNumber ≤ proximity then
      groupLoop proximity v (cur :: curRest) vs
    else
      (cur :: curRest).reverse :: groupLoop proximity v [] vs

/-- `ChapterDetectionEngine._group_chapters_by_proximity`: sort the votes by
page number and greedily group consecutive votes whose page numbers differ
by at most `proximity`. -/
def groupChaptersByProximity (votes : List DetectionVote) (proximity : Int) :
    List (List DetectionVote) :=
  match stableSortByKey (fun v => v.chapter.pageNumber) votes with
  | [] => []
  | v :: vs => groupLoop proximity v [] vs

/-- Python `max(group, key=lambda x: x['weighted_confidence'])` on the
nonempty group `x :: xs`: the first vote attaining the maximum wins. -/
def maxByWeightedConfidence (x : DetectionVote) (xs : List DetectionVote) : DetectionVote :=
  xs.foldl (fun best v => if best.weightedConfidence < v.weightedConfidence then v else best) x

/-- First-occurrence deduplication, the iteration order of a Python
`Counter` / insertion-ordered `dict`. -/
def firstDedupGo (seen : List String) : List String → List String
  | [] => []
  | x :: xs =>
    if seen.contains x then firstDedupGo seen xs
    else x :: firstDedupGo (x :: seen) xs

/-- See `firstDedupGo`. -/
def firstDedup (l : List String) : List String :=
  firstDedupGo [] l

/-- Python `Counter([x] + xs).most_common(1)[0][0]`: among the keys in
first-insertion order, the first one attaining the maximal count
(`Counter.most_common` sorts stably by descending count). -/
def mostCommon1 (x : String) (xs : List String) : String :=
  let l := x :: xs
  (firstDedup l).foldl (fun best k => if l.count best < l.count k then k else best) x

/-- Number of distinct algorithm names in a group
(`len(set(item['algorithm'] for item in group))`). -/
def distinctAlgoCount (group : List DetectionVote) : Nat :=
  (firstDedup (group.map (fun v => v.algorithm))).length

/-- `ChapterDetectionEngine._enhance_with_group_info`: possibly override the
title with the most common title of the group, then boost the confidence by
`min(0.3, 0.05 * |group| + 0.05 * #distinct algorithms)`, capped at 1. -/
def enhanceWithGroupInfo (best : Chapter) (group : List DetectionVote) : Chapter :=
  let titles := (group.map (fun v => v.chapter.title)).filter (fun t => t ≠ best.title)
  let newTitle := if titles = [] then best.title else mostCommon1 best.title titles
  let boost : ℚ :=
    min (3/10) ((group.length : ℚ) * (1/20) + (distinctAlgoCount group : ℚ) * (1/20))
  { best with
    title := newTitle
    confidence := min 1 (best.confidence + boost) }

/-- `ChapterDetectionEngine._build_consensus`: pool the votes, group them by
page proximity 2, take each group's highest-weighted vote, enhance it with
the group information, and keep it when the enhanced confidence reaches
`min_chapter_confidence`. -/
def buildConsensus (algorithmResults : List (String × List Chapter × ℚ))
    (minChapterConfidence : ℚ) : List Chapter :=
  let allVotes := poolVotes algorithmResults
  if allVotes = [] then []
  else
    (groupChaptersByProximity allVotes 2).filterMap (fun group =>
      match group with
      | [] => none
      | x :: xs =>
        let best := maxByWeightedConfidence x xs
        let enhanced := enhanceWithGroupInfo best.chapter group
        if minChapterConfidence ≤ enhanced.confidence then some enhanced else none)

/-- `ChapterDetectionEngine._calculate_chapter_word_count`: sum the word
counts of all blocks on pages `[chapter.page, chapter.page + 10)`. -/
def calculateChapterWordCount (ch : Chapter) (textBlocks : List TextBlock) : Nat :=
  let nextChapterPage := ch.pageNumber + 10
  textBlocks.foldl
    (fun acc b =>
      if ch.pageNumber ≤ b.pageNumber ∧ b.pageNumber < nextChapterPage then
        acc + (splitWords b.text).length
      else acc)
    0

/-- The `for i, chapter in enumerate(chapters): chapter.number = i + 1` loop
of `_validate_and_refine`, started at `i + 1 = n`. -/
def assignNumbers (n : Nat) : List Chapter → List Chapter
  | [] => []
  | ch :: rest => { ch with number := n } :: assignNumbers (n + 1) rest

/-- `ChapterDetectionEngine._adjust_final_confidences`: multiply by 0.8 the
confidence of every chapter whose word count is below 0.3 or above 3 times
the average positive word count. -/
def adjustFinalConfidences (chapters : List Chapter) : List Chapter :=
  let wordCounts : List Nat := (chapters.map (fun ch => ch.wordCount)).filter (fun wc => 0 < wc)
  if wordCounts = [] then chapters
  else
    let avgWords : ℚ := ((wordCounts.map (fun wc => (wc : ℚ))).sum) / (wordCounts.length : ℚ)
    chapters.map (fun ch =>
      if 0 < ch.wordCount ∧
          ((ch.wordCount : ℚ) / avgWords < 3/10 ∨ 3 < (ch.wordCount : ℚ) / avgWords) then
        { ch with confidence := ch.confidence * (8/10) }
      else ch)

/-- `ChapterDetectionEngine._validate_and_refine`: sort by page number,
assign sequential numbers 1.., compute the 10-page-window word counts, drop
chapters with fewer than 100 words, and apply the distribution-aware
confidence adjustment. -/
def validateAndRefine (chapters : List Chapter) (textBlocks : List TextBlock) : List Chapter :=
  if chapters = [] then []
  else
    let sorted := stableSortByKey (fun ch => ch.pageNumber) chapters
    let numbered := assignNumbers 1 sorted
    let withCounts := numbered.map (fun ch =>
      { ch with wordCount := calculateChapterWordCount ch textBlocks })
    let minWords := 100
    let validated := withCounts.filter (fun ch => minWords ≤ ch.wordCount)
    adjustFinalConfidences validated

/-- Bounding-box data read by `_validate_chapter_candidate`; only the `y0`
coordinate (distance from the top of the page, cf. the pdfplumber engine,
which stores `char['top']` in `y0`) is consulted. -/
structure BBox where
  y0 : ℚ
deriving DecidableEq, Repr

/-- `ChapterDetectionEngine._validate_chapter_candidate`: reject headings of
more than 25 words; when a bounding box is present (`none` models a missing
or empty `bbox` dict), reject headings whose `y0 / 800` relative position
exceeds 0.7 (the page height is the literal constant 800, so the
`page_height > 0` guard of the source is always taken). -/
def validateChapterCandidate (text : String) (bbox : Option BBox) : Bool :=
  if 25 < (splitWords text).length then false
  else
    match bbox with
    | none => true
    | some b => if 7/10 < b.y0 / 800 then false else true

/-! ## Image processor (`analyzers/image_processor.py`) -/

/-- The `ImageData` model, restricted to the fields the claims touch:
`description`, `relevance_score`, `reference_mentions` (modelled by the list
of mention texts; only emptiness is ever consulted), `caption` and
`page_number`. -/
structure ImageData where
  id : String
  description : String
  relevanceScore : ℚ
  referenceMentions : List String
  caption : Option String
  pageNumber : Int
deriving DecidableEq, Repr

/-- The context dictionary built by `ImageProcessor._extract_image_context`:
`preceding_text`, `following_text` and an optional `caption`. -/
structure ImageContext where
  precedingText : String
  followingText : String
  caption : Option String
deriving DecidableEq, Repr

/-- Python truthiness of `context.get('caption')`: present and non-empty. -/
def captionTruthy : Option String → Bool
  | none => false
  | some s => s ≠ ""

/-- `ImageProcessor._calculate_relevance_score`: start at 5.0, add 1.0 when
surrounding text is present, 1.5 when a caption is present, 1.0 when the
description has more than 5 words, and cap at 10.0. -/
def calculateRelevanceScore (context : ImageContext) (description : String) : ℚ :=
  let r1 : ℚ := 5
  let r2 := if context.precedingText ≠ "" ∨ context.followingText ≠ "" then r1 + 1 else r1
  let r3 := if captionTruthy context.caption then r2 + 3/2 else r2
  let r4 := if 5 < (splitWords description).length then r3 + 1 else r3
  min 10 r4

/-- The per-item loop of `ImageProcessor.process_images_with_intelligence`.
`processOne` models the `try` body for one raw image record: `some img` when
the body completes and `none` when it raises, in which case the `except`
branch logs a warning and executes `continue`, contributing nothing to the
output. -/
def processImagesWithIntelligence {α : Type} (processOne : α → Option ImageData)
    (images : List α) : List ImageData :=
  images.foldr
    (fun imgData acc =>
      match processOne imgData with
      | some img => img :: acc
      | none => acc)
    []

/-! ## Paragraph processor (`analyzers/paragraph_processor.py`)

`Paragraph` keeps the fields the claims touch (`content`, `word_count`,
`page_number`, `order_index`, `confidence`); the type/importance/concept
classification fields are omitted, as no claim depends on them. -/

/-- The `Paragraph` model, restricted to the fields used by the claims. -/
structure Paragraph where
  content : String
  wordCount : Nat
  pageNumber : Int
  orderIndex : Nat
  confidence : ℚ
deriving DecidableEq, Repr

/-- A text block as consumed by the paragraph processor: its text, page
number, and whether a `font_info` dict is present. -/
structure PTextBlock where
  text : String
  pageNumber : Int
  hasFontInfo : Bool
deriving DecidableEq, Repr

/-- Regex `re.sub(r'\s+', ' ', text)`: collapse every whitespace run into a
single space. -/
def collapseWsAux (inRun : Bool) : List Char → List Char
  | [] => []
  | c :: rest =>
    if c.isWhitespace then
      if inRun then collapseWsAux true rest else ' ' :: collapseWsAux true rest
    else c :: collapseWsAux false rest

/-- See `collapseWsAux`: every maximal whitespace run becomes one space. -/
def collapseWs (l : List Char) : List Char :=
  collapseWsAux false l

/-- Regex `^\d+\s*$` anchored on the whole (newline-free) string: one or
more digits followed by optional whitespace. -/
def isBareNumberLine (l : List Char) : Bool :=
  l.takeWhile Char.isDigit ≠ [] && (l.dropWhile Char.isDigit).all Char.isWhitespace

/-- Regex `^Page \d+ of \d+\s*$` anchored on the whole string. -/
def isPageXofYLine (l : List Char) : Bool :=
  match l with
  | 'P' :: 'a' :: 'g' :: 'e' :: ' ' :: r1 =>
    r1.takeWhile Char.isDigit ≠ [] &&
      (match r1.dropWhile Char.isDigit with
       | ' ' :: 'o' :: 'f' :: ' ' :: r2 =>
         r2.takeWhile Char.isDigit ≠ [] && (r2.dropWhile Char.isDigit).all Char.isWhitespace
       | _ => false)
  | _ => false

/-- The character replacements of `ParagraphProcessor._clean_text`:
ligatures, en dash and smart quotes. -/
def replaceOcrChar (c : Char) : List Char :=
  if c = 'ﬁ' then ['f', 'i']
  else if c = 'ﬂ' then ['f', 'l']
  else if c = '–' then ['-']
  else if c = '’' then ['\'']
  else if c = '“' then ['"']
  else if c = '”' then ['"']
  else [c]

/-- `ParagraphProcessor._clean_text`: collapse whitespace, blank out
standalone page-number and `Page X of Y` lines (after the collapse the text
is newline-free, so the `MULTILINE` anchors see the whole string), apply the
OCR character fixes, and strip. -/
def cleanText (s : String) : String :=
  if s = "" then ""
  else
    let l1 := collapseWs s.toList
    let l2 := if isBareNumberLine l1 then [] else l1
    let l3 := if isPageXofYLine l2 then [] else l2
    String.mk (trimChars (l3.flatMap replaceOcrChar))

/-- The head of the remaining input is a whitespace character. -/
def headIsWs : List Char → Bool
  | [] => false
  | d :: _ => d.isWhitespace

/-- Regex `re.split(r'(?<=[.!?])\s+', para)`: cut after a `.`, `!` or `?`
that is followed by whitespace, discarding the whitespace run.  `cur` holds
the current chunk reversed. -/
def splitSentencesAux (skipping : Bool) (cur : List Char) : List Char → List (List Char)
  | [] => if skipping then [[]] else [cur.reverse]
  | c :: rest =>
    if skipping then
      if c.isWhitespace then splitSentencesAux true cur rest
      else if (c = '.' || c = '!' || c = '?') && headIsWs rest then
        [c] :: splitSentencesAux true [] rest
      else splitSentencesAux false [c] rest
    else
      if (c = '.' || c = '!' || c = '?') && headIsWs rest then
        (c :: cur).reverse :: splitSentencesAux true [] rest
      else splitSentencesAux false (c :: cur) rest

/-- The sentence-packing loop of `_split_block_into_paragraphs`: grow
`current_para`, flushing it (stripped) whenever adding the next sentence
would exceed 500 characters. -/
def packStep (st : List (List Char) × List Char) (sentence : List Char) :
    List (List Char) × List Char :=
  let (done, cur) := st
  if 500 < cur.length + sentence.length ∧ cur ≠ [] then
    (done ++ [trimChars cur], sentence)
  else
    (done, if cur = [] then sentence else cur ++ (' ' :: sentence))

/-- Fold of `packStep` over the sentences plus the final flush of the
remaining `current_para`. -/
def packSentences (sentences : List (List Char)) : List (List Char) :=
  let (done, cur) := sentences.foldl packStep ([], [])
  if trimChars cur ≠ [] then done ++ [trimChars cur] else done

/-- Python `text.split('\\n\\n')`: cut at each non-overlapping occurrence
of two consecutive newlines. -/
def splitOnBlankLine (cur : List Char) : List Char → List (List Char)
  | '\n' :: '\n' :: rest => cur.reverse :: splitOnBlankLine [] rest
  | c :: rest => splitOnBlankLine (c :: cur) rest
  | [] => [cur.reverse]

/-- `ParagraphProcessor._split_block_into_paragraphs`: split on blank lines,
strip, and cut paragraphs longer than 1000 characters on sentence
boundaries into chunks of at most about 500 characters. -/
def splitBlockIntoParagraphs (text : String) : List String :=
  (splitOnBlankLine [] text.toList).flatMap (fun para =>
    let p := trimChars para
    if p = [] then []
    else if 1000 < p.length then
      (packSentences (splitSentencesAux false [] p)).map String.mk
    else [String.mk p])

/-- Character class `[A-Za-z0-9\s\.,!?;:()\-"\']` of
`_calculate_paragraph_confidence`. -/
def isCleanTextChar (c : Char) : Bool :=
  ('A' ≤ c && c ≤ 'Z') || ('a' ≤ c && c ≤ 'z') || c.isDigit || c.isWhitespace ||
    c = '.' || c = ',' || c = '!' || c = '?' || c = ';' || c = ':' ||
    c = '(' || c = ')' || c = '-' || c = '"' || c = '\''

/-- `ParagraphProcessor._calculate_paragraph_confidence`: 0.8 base, +0.1 for
clean text, -0.1 for fewer than 5 or more than 500 words, +0.05 when font
info is present, clamped to `[0.1, 1]`. -/
def calculateParagraphConfidence (text : String) (block : PTextBlock) : ℚ :=
  let c1 : ℚ := if text.toList ≠ [] && text.toList.all isCleanTextChar then 4/5 + 1/10 else 4/5
  let wc := (splitWords text).length
  let c2 := if wc < 5 ∨ 500 < wc then c1 - 1/10 else c1
  let c3 := if block.hasFontInfo then c2 + 1/20 else c2
  max (1/10) (min 1 c3)

/-- The inner loop of `extract_paragraphs_with_classification` over the
sub-paragraphs of one block: skip texts of stripped length below 10,
otherwise emit a `Paragraph` and advance the id counter. -/
def mkParagraphs (block : PTextBlock) (counter : Nat) :
    List String → List Paragraph × Nat
  | [] => ([], counter)
  | t :: ts =>
    if (stripStr t).length < 10 then mkParagraphs block counter ts
    else
      let p : Paragraph :=
        { content := t
          wordCount := (splitWords t).length
          pageNumber := block.pageNumber
          orderIndex := counter
          confidence := calculateParagraphConfidence t block }
      let (rest, counter') := mkParagraphs block (counter + 1) ts
      (p :: rest, counter')

/-- The outer loop of `extract_paragraphs_with_classification` over the
blocks: clean each block's text, skip blocks of stripped length below 10,
split the rest into sub-paragraphs and hand them to `mkParagraphs`. -/
def extractLoop (counter : Nat) : List PTextBlock → List Paragraph
  | [] => []
  | b :: bs =>
    let text := cleanText b.text
    if (stripStr text).length < 10 then extractLoop counter bs
    else
      let (ps, counter') := mkParagraphs b counter (splitBlockIntoParagraphs text)
      ps ++ extractLoop counter' bs

/-- `ParagraphProcessor.extract_paragraphs_with_classification`. -/
def extractParagraphsWithClassification (blocks : List PTextBlock) : List Paragraph :=
  extractLoop 0 blocks

/-! ## Quality assessment (`processors/quality_assessment.py`) -/

/-- The `BookContent` model, restricted to the four collections the quality
assessment reads. -/
structure BookContent where
  chapters : List Chapter
  paragraphs : List Paragraph
  images : List ImageData
  citations : List Citation
deriving DecidableEq, Repr

/-- `max(0.0, min(1.0, x))`, the clamp ending every `_assess_*` method. -/
def clamp01 (x : ℚ) : ℚ := max 0 (min 1 x)

/-- `QualityAssessmentEngine._assess_structure_quality`. -/
def assessStructureQuality (content : BookContent) : ℚ :=
  if content.chapters = [] then clamp01 (4/5 - 3/10)
  else
    let chapterNumbers :=
      (content.chapters.filter (fun ch => ch.number ≠ 0)).map (fun ch => ch.number)
    let c1 : ℚ :=
      if chapterNumbers = [] then 4/5
      else if chapterNumbers = List.range' 1 chapterNumbers.length then 4/5 + 1/10
      else 4/5 - 1/10
    let wordCounts : List Nat :=
      (content.chapters.map (fun ch => ch.wordCount)).filter (fun wc => 0 < wc)
    let c2 :=
      if wordCounts = [] then c1
      else
        let avgWords : ℚ := ((wordCounts.map (fun wc => (wc : ℚ))).sum) / (wordCounts.length : ℚ)
        let outliers := wordCounts.filter (fun wc =>
          (wc : ℚ) < avgWords * (3/10) ∨ avgWords * 3 < (wc : ℚ))
        if 1/5 < (outliers.length : ℚ) / (wordCounts.length : ℚ) then c1 - 1/10 else c1
    clamp01 c2

/-- `QualityAssessmentEngine._assess_content_quality`. -/
def assessContentQuality (content : BookContent) : ℚ :=
  if content.paragraphs = [] then clamp01 (4/5 - 2/5)
  else
    let wordCounts := content.paragraphs.map (fun p => p.wordCount)
    let veryShort := (wordCounts.filter (fun wc => wc < 5)).length
    let veryLong := (wordCounts.filter (fun wc => 500 < wc)).length
    let c1 : ℚ :=
      if 3/10 < ((veryShort : ℚ) + (veryLong : ℚ)) / (content.paragraphs.length : ℚ) then
        4/5 - 1/5
      else 4/5
    let paraConfidences := content.paragraphs.map (fun p => p.confidence)
    let c2 :=
      if paraConfidences = [] then c1
      else c1 * (paraConfidences.sum / (paraConfidences.length : ℚ))
    clamp01 c2

/-- The generic-description test of `_assess_image_quality`: the lowered
description contains `image`, `chart` or `diagram` and has fewer than 5
words. -/
def isGenericDescription (description : String) : Bool :=
  let desc := toLowerStr description
  (containsSub desc "image" || containsSub desc "chart" || containsSub desc "diagram") &&
    (splitWords desc).length < 5

/-- `QualityAssessmentEngine._assess_image_quality`. -/
def assessImageQuality (content : BookContent) : ℚ :=
  if content.images = [] then 7/10
  else
    let genericDescriptions :=
      (content.images.filter (fun img => isGenericDescription img.description)).length
    let c1 : ℚ :=
      if 0 < genericDescriptions then
        4/5 - min (3/10) ((genericDescriptions : ℚ) / (content.images.length : ℚ))
      else 4/5
    let imagesWithContext :=
      (content.images.filter (fun img =>
        img.referenceMentions ≠ [] ∨ 7 < img.relevanceScore)).length
    let contextRatio : ℚ := (imagesWithContext : ℚ) / (content.images.length : ℚ)
    clamp01 (c1 * (7/10 + (3/10) * contextRatio))

/-- `QualityAssessmentEngine._assess_citation_quality`. -/
def assessCitationQuality (content : BookContent) : ℚ :=
  if content.citations = [] then 4/5
  else
    let validCitations :=
      (content.citations.filter (fun cit => 10 < (stripStr cit.content).length)).length
    let c1 : ℚ :=
      if 0 < content.citations.length then
        (4/5) * ((validCitations : ℚ) / (content.citations.length : ℚ))
      else 4/5
    clamp01 c1

/-- The overall blend of `comprehensive_quality_check`:
`structure*0.3 + content*0.4 + image*0.2 + citation*0.1`. -/
def overallConfidence (content : BookContent) : ℚ :=
  assessStructureQuality content * (3/10) +
    assessContentQuality content * (2/5) +
    assessImageQuality content * (1/5) +
    assessCitationQuality content * (1/10)

/-! ## Concrete data used by witnesses and counterexamples -/

/-- A chapter candidate as produced by the detection algorithms: fresh
number/word-count defaults, with the given title, page and confidence. -/
def mkChapter (title : String) (page : Int) (confidence : ℚ) : Chapter :=
  { number := 0, title := title, pageNumber := page, wordCount := 0, confidence := confidence }

/-- A 100-word text (the minimum word count a chapter must reach). -/
def hundredWords : String := String.intercalate " " (List.replicate 100 "w")

/-- Text blocks giving 100 words to pages 1 and 40 and none to page 20. -/
def gapBlocks : List TextBlock := [⟨hundredWords, 1⟩, ⟨hundredWords, 40⟩]

/-- Three consensus chapters at pages 1, 20 and 40; the middle one gets no
words from `gapBlocks` and is removed by validation after numbering. -/
def gapChapters : List Chapter :=
  [mkChapter "One" 1 (9/10), mkChapter "Two" 20 (9/10), mkChapter "Three" 40 (9/10)]

/-- Two same-page candidates whose weighted confidences tie:
`0.72 * 1.0 = 0.8 * 0.9`. -/
def tieChapterA : Chapter := mkChapter "Alpha" 5 (72/100)

/-- See `tieChapterA`. -/
def tieChapterB : Chapter := mkChapter "Beta" 5 (4/5)

/-- The five algorithm result lists, in the order of
`detect_chapters_intelligently`. -/
def tieResultsA : List (String × List Chapter × ℚ) :=
  [("toc", [tieChapterA], 1), ("font", [], 4/5), ("pattern", [tieChapterB], 9/10),
   ("break", [], 3/5), ("context", [], 7/10)]

/-- The same five result lists with `pattern` moved to the front. -/
def tieResultsB : List (String × List Chapter × ℚ) :=
  [("pattern", [tieChapterB], 9/10), ("toc", [tieChapterA], 1), ("font", [], 4/5),
   ("break", [], 3/5), ("context", [], 7/10)]

/-- Two distinct citations with identical content. -/
def dupCitations : List Citation :=
  [⟨"c1", CitationType.inline, "Smith, 2020", 1⟩, ⟨"c2", CitationType.inline, "Smith, 2020", 2⟩]

/-- A fixed processed image record. -/
def sampleImage : ImageData :=
  { id := "img0"
    description := "Illustrative graphic"
    relevanceScore := 5
    referenceMentions := []
    caption := none
    pageNumber := 1 }

/-- A per-item image processor that succeeds on record 0 and raises
(modelled by `none`) on every other record. -/
def failingProcessOne : Nat → Option ImageData :=
  fun n => if n = 0 then some sampleImage else none

/-! ## C9 -/

/-- C9: for every context and description, the relevance score computed by
`_calculate_relevance_score` lies between 5.0 and 8.5: it starts at the 5.0
baseline and can only gain the bounded boosts +1.0, +1.5 and +1.0, so the
10.0 cap is never reached. -/
theorem relevance_score_bounds (context : ImageContext) (description : String) :
    5 ≤ calculateRelevanceScore context description ∧
      calculateRelevanceScore context description ≤ 17/2 := by
  unfold calculateRelevanceScore
  split_ifs <;>
    exact ⟨le_min (by norm_num) (by norm_num), le_trans (min_le_right _ _) (by norm_num)⟩

/-! ## C7 -/

/-- C7 counterexample: with 3 APA matches, 0 MLA matches and 3 IEEE matches
(realized e.g. by the text `"(Smith, 2020) (Smith, 2020) (Smith, 2020) [1]
[2] [3]"`), `detect_citation_style` returns `"ieee"` although the IEEE count
does not strictly exceed the APA count, refuting the claim that a specific
style is returned only when its count strictly exceeds both other styles'
counts. -/
theorem detect_style_tie_returns_ieee :
    detectCitationStyle 3 0 3 = "ieee" ∧ ¬ (3 : ℕ) > 3 := by
  constructor
  · rfl
  · omega

/-- C7 amended: `detect_citation_style` is a first-match cascade: `"apa"`
is returned iff the APA count strictly exceeds both other counts and the
floor of 2; `"mla"` is returned iff the APA branch fails and the MLA count
strictly exceeds the IEEE count and the floor (the MLA count need not
exceed the APA count); `"ieee"` is returned iff both earlier branches fail
and the IEEE count exceeds the floor (the IEEE count need not exceed
either other count); otherwise `"mixed"`. -/
theorem detect_citation_style_cases (a m i : ℕ) :
    (detectCitationStyle a m i = "apa" ↔ (a > m ∧ a > i ∧ a > 2)) ∧
    (detectCitationStyle a m i = "mla" ↔
      (¬(a > m ∧ a > i ∧ a > 2) ∧ m > i ∧ m > 2)) ∧
    (detectCitationStyle a m i = "ieee" ↔
      (¬(a > m ∧ a > i ∧ a > 2) ∧ ¬(m > i ∧ m > 2) ∧ i > 2)) ∧
    (detectCitationStyle a m i = "mixed" ↔
      (¬(a > m ∧ a > i ∧ a > 2) ∧ ¬(m > i ∧ m > 2) ∧ ¬(i > 2))) := by
  unfold detectCitationStyle
  split_ifs with h1 h2 h3 <;>
    refine ⟨⟨fun hs => ?_, fun hp => ?_⟩, ⟨fun hs => ?_, fun hp => ?_⟩,
      ⟨fun hs => ?_, fun hp => ?_⟩, ⟨fun hs => ?_, fun hp => ?_⟩⟩ <;>
    simp_all

/-! ## C8 -/

/-- C8 counterexample: the heading `"Chapter 5: Results"` with bounding-box
top `y0 = 400` sits at relative vertical position `400/800 = 0.5` measured
from the top of the page, i.e. inside the bottom 70% of the page, yet
`_validate_chapter_candidate` accepts it: the code only rejects positions
beyond 0.7 (the bottom 30%). -/
theorem chapter_candidate_bottom70_accepted :
    validateChapterCandidate "Chapter 5: Results" (some ⟨400⟩) = true ∧
      (3/10 : ℚ) < 400/800 := by
  constructor
  · simp only [validateChapterCandidate]
    rw [if_neg (by decide : ¬ 25 < (splitWords "Chapter 5: Results").length)]
    show (if (7:ℚ)/10 < 400/800 then false else true) = true
    rw [if_neg (by norm_num)]
  · norm_num

/-- C8 amended: a pattern match is accepted by `_validate_chapter_candidate`
iff the matched heading is at most 25 words long and, when a bounding box is
present, the heading's top is at most 70% of the way down the page
(`y0/800 ≤ 0.7`, i.e. it is not in the bottom 30% — not, as claimed, the
bottom 70%). -/
theorem validate_chapter_candidate_iff (text : String) (bbox : Option BBox) :
    validateChapterCandidate text bbox = true ↔
      ((splitWords text).length ≤ 25 ∧ ∀ b, bbox = some b → b.y0 / 800 ≤ 7/10) := by
  cases bbox with
  | none =>
    by_cases h : 25 < (splitWords text).length
    · simp only [validateChapterCandidate]
      rw [if_pos h]
      simp only [Bool.false_eq_true, false_iff]
      rintro ⟨hlen, -⟩
      omega
    · simp only [validateChapterCandidate]
      rw [if_neg h]
      show true = true ↔ _
      exact iff_of_true rfl ⟨by omega, fun b hb => Option.noConfusion hb⟩
  | some b =>
    by_cases h : 25 < (splitWords text).length
    · simp only [validateChapterCandidate]
      rw [if_pos h]
      simp only [Bool.false_eq_true, false_iff]
      rintro ⟨hlen, -⟩
      omega
    · simp only [validateChapterCandidate]
      rw [if_neg h]
      show (if 7/10 < b.y0 / 800 then false else true) = true ↔ _
      by_cases hy : 7/10 < b.y0 / 800
      · rw [if_pos hy]
        simp only [Bool.false_eq_true, false_iff]
        rintro ⟨-, hpos⟩
        exact absurd (hpos b rfl) (not_le.mpr hy)
      · rw [if_neg hy]
        refine iff_of_true rfl ⟨by omega, fun b' hb => ?_⟩
        cases hb
        exact le_of_not_lt hy

/-- Witness for `validate_chapter_candidate_iff` at a concrete input. -/
theorem validate_chapter_candidate_iff_witness :
    validateChapterCandidate "Chapter 1: Intro" none = true :=
  (validate_chapter_candidate_iff "Chapter 1: Intro" none).mpr
    ⟨by decide, fun b hb => Option.noConfusion hb⟩

/-! ## C6 -/

/-- C6 counterexample: two distinct citations with identical valid content
`"Smith, 2020"` both survive `_validate_citations` — validation never
deduplicates (exact-content deduplication happens only inside
`_extract_mixed_citations`, which is skipped when a specific style was
detected). -/
theorem validate_citations_keeps_duplicates :
    (validateCitations dupCitations).map Citation.content =
        ["Smith, 2020", "Smith, 2020"] ∧
      ¬ ((validateCitations dupCitations).map Citation.content).Nodup := by
  constructor
  · rfl
  · decide

/-- C6 amended: `_validate_citations` is a per-item filter: it keeps,
in order and with stripped content, exactly those citations whose stripped
content has at least 3 characters and does not match a false-positive shape
(all digits; `see` + whitespace; `page` + whitespace + digits; single
letters are removed by the length rule), and it performs no deduplication;
exact-content deduplication is performed only by
`_remove_duplicate_citations` on the mixed-style path, which keeps the
first citation of each content. -/
theorem validate_citations_eq_filterMap (citations : List Citation) :
    validateCitations citations = citations.filterMap validateOneCitation ∧
      ((removeDuplicateCitations citations).map Citation.content).Nodup := by
  constructor
  · induction citations with
    | nil => rfl
    | cons c rest ih =>
      have hstep : validateCitations (c :: rest) =
          (match validateOneCitation c with
           | none => validateCitations rest
           | some c' => c' :: validateCitations rest) := by
        simp only [validateCitations, List.foldr_cons, validateOneCitation]
        split_ifs <;> rfl
      rw [hstep, List.filterMap_cons, ih]
      cases validateOneCitation c <;> rfl
  · have key : ∀ (cs : List Citation) (seen : List String),
        ((removeDuplicateCitations.go seen cs).map Citation.content).Nodup ∧
          ∀ s ∈ seen, s ∉ (removeDuplicateCitations.go seen cs).map Citation.content := by
      intro cs
      induction cs with
      | nil => intro seen; exact ⟨List.nodup_nil, by simp [removeDuplicateCitations.go]⟩
      | cons c rest ih =>
        intro seen
        unfold removeDuplicateCitations.go
        split_ifs with h
        · refine ⟨(ih seen).1, (ih seen).2⟩
        · refine ⟨List.nodup_cons.mpr ⟨?_, (ih (c.content :: seen)).1⟩, ?_⟩
          · exact (ih (c.content :: seen)).2 c.content (by simp)
          · intro s hs
            simp only [List.map_cons, List.mem_cons]
            rintro (rfl | hmem)
            · exact h (by simpa using hs)
            · exact (ih (c.content :: seen)).2 s (by simp [hs]) hmem
    exact (key citations []).1

/-! ## C3 -/

/-- C3 counterexample: with a per-item processor that succeeds on record 0
and raises on record 1, `process_images_with_intelligence` returns a
single-element list for the two-element input — the failed item is *not*
kept with null/zero payload fields, so the output does not have one entry
per input record. -/
theorem failed_image_omitted :
    (processImagesWithIntelligence failingProcessOne [0, 1]).length = 1 ∧
      (processImagesWithIntelligence failingProcessOne [0, 1]).length ≠ 2 := by
  constructor
  · rfl
  · decide

/-- C3 amended: when processing one image record raises, the `except`
branch logs and `continue`s, so the item is skipped and omitted from the
returned list entirely: the output is exactly the successfully processed
records in order (`filterMap`), and every returned image stems from a
record whose processing succeeded — positional continuity across failures
is *not* preserved. -/
theorem process_images_skips_failures {α : Type} (processOne : α → Option ImageData)
    (images : List α) :
    processImagesWithIntelligence processOne images = images.filterMap processOne ∧
      ∀ img ∈ processImagesWithIntelligence processOne images,
        ∃ a ∈ images, processOne a = some img := by
  have heq : processImagesWithIntelligence processOne images = images.filterMap processOne := by
    induction images with
    | nil => rfl
    | cons x rest ih =>
      simp only [processImagesWithIntelligence, List.foldr_cons, List.filterMap_cons] at *
      cases hx : processOne x <;> simp [hx, ih]
  refine ⟨heq, fun img hmem => ?_⟩
  rw [heq] at hmem
  exact List.mem_filterMap.mp hmem

/-- Witness for `process_images_skips_failures` at a concrete input. -/
theorem process_images_skips_failures_witness :
    processImagesWithIntelligence failingProcessOne [0, 1] =
      List.filterMap failingProcessOne [0, 1] :=
  (process_images_skips_failures failingProcessOne [0, 1]).1

/-! ## C5 -/

/-- `clamp01` never exceeds 1. -/
theorem clamp01_le_one (x : ℚ) : clamp01 x ≤ 1 :=
  max_le (by norm_num) (min_le_left _ _)

/-- `_assess_image_quality` is bounded by 1. -/
theorem assessImageQuality_le_one (content : BookContent) : assessImageQuality content ≤ 1 := by
  unfold assessImageQuality
  split_ifs <;> first | exact clamp01_le_one _ | norm_num

/-- `_assess_citation_quality` is bounded by 1. -/
theorem assessCitationQuality_le_one (content : BookContent) :
    assessCitationQuality content ≤ 1 := by
  unfold assessCitationQuality
  split_ifs <;> first | exact clamp01_le_one _ | norm_num

/-- C5: the overall confidence is the fixed weighted blend
`0.3*structure + 0.4*content + 0.2*image + 0.1*citation`; for a document
with zero chapters the structure confidence is `0.8 - 0.3 = 0.5`, with zero
paragraphs the content confidence is `0.8 - 0.4 = 0.4`, and with both empty
the overall confidence is below 0.8. -/
theorem quality_blend_and_empty_doc (content : BookContent) :
    overallConfidence content =
        assessStructureQuality content * (3/10) + assessContentQuality content * (2/5) +
          assessImageQuality content * (1/5) + assessCitationQuality content * (1/10) ∧
      (content.chapters = [] → assessStructureQuality content = 1/2) ∧
      (content.paragraphs = [] → assessContentQuality content = 2/5) ∧
      (content.chapters = [] → content.paragraphs = [] →
        overallConfidence content < 4/5) := by
  have hs : content.chapters = [] → assessStructureQuality content = 1/2 := by
    intro h
    simp only [assessStructureQuality, if_pos h]
    norm_num [clamp01, min_def, max_def]
  have hc : content.paragraphs = [] → assessContentQuality content = 2/5 := by
    intro h
    simp only [assessContentQuality, if_pos h]
    norm_num [clamp01, min_def, max_def]
  refine ⟨rfl, hs, hc, fun h1 h2 => ?_⟩
  have hi := assessImageQuality_le_one content
  have hci := assessCitationQuality_le_one content
  unfold overallConfidence
  rw [hs h1, hc h2]
  linarith

/-- The document of end-to-end scenario 2: no content at all. -/
def emptyContent : BookContent := ⟨[], [], [], []⟩

/-- Witness for `quality_blend_and_empty_doc` at the empty document. -/
theorem quality_blend_and_empty_doc_witness :
    assessStructureQuality emptyContent = 1/2 ∧ assessContentQuality emptyContent = 2/5 ∧
      overallConfidence emptyContent < 4/5 :=
  ⟨(quality_blend_and_empty_doc emptyContent).2.1 rfl,
   (quality_blend_and_empty_doc emptyContent).2.2.1 rfl,
   (quality_blend_and_empty_doc emptyContent).2.2.2 rfl rfl⟩

/-! ## C10 -/

/-- One unfolding step of `mkParagraphs`. -/
theorem mkParagraphs_cons (block : PTextBlock) (counter : Nat) (t : String) (ts : List String) :
    mkParagraphs block counter (t :: ts) =
      if (stripStr t).length < 10 then mkParagraphs block counter ts
      else
        (({ content := t
            wordCount := (splitWords t).length
            pageNumber := block.pageNumber
            orderIndex := counter
            confidence := calculateParagraphConfidence t block } : Paragraph) ::
            (mkParagraphs block (counter + 1) ts).1,
          (mkParagraphs block (counter + 1) ts).2) := by
  simp only [mkParagraphs]

/-- Every sub-paragraph kept by `mkParagraphs` has stripped length at
least 10. -/
theorem mkParagraphs_content_length (block : PTextBlock) (ts : List String) :
    ∀ (counter : Nat) (s : String),
      s ∈ ((mkParagraphs block counter ts).1).map Paragraph.content →
        10 ≤ (stripStr s).length := by
  induction ts with
  | nil => intro counter s hmem; simp [mkParagraphs] at hmem
  | cons t rest ih =>
    intro counter s hmem
    rw [mkParagraphs_cons] at hmem
    by_cases h : (stripStr t).length < 10
    · rw [if_pos h] at hmem
      exact ih counter s hmem
    · rw [if_neg h] at hmem
      simp only [List.map_cons, List.mem_cons] at hmem
      rcases hmem with rfl | hmem
      · omega
      · exact ih (counter + 1) s hmem

/-- One unfolding step of `extractLoop`. -/
theorem extractLoop_cons (counter : Nat) (b : PTextBlock) (bs : List PTextBlock) :
    extractLoop counter (b :: bs) =
      if (stripStr (cleanText b.text)).length < 10 then extractLoop counter bs
      else
        (mkParagraphs b counter (splitBlockIntoParagraphs (cleanText b.text))).1 ++
          extractLoop
            (mkParagraphs b counter (splitBlockIntoParagraphs (cleanText b.text))).2 bs := by
  simp only [extractLoop]

/-- C10: every paragraph returned by
`extract_paragraphs_with_classification` has content whose
whitespace-stripped length is at least 10 characters; shorter cleaned
blocks and shorter split sub-paragraphs are silently dropped. -/
theorem extracted_paragraphs_min_length (blocks : List PTextBlock) (s : String)
    (hs : s ∈ (extractParagraphsWithClassification blocks).map Paragraph.content) :
    10 ≤ (stripStr s).length := by
  unfold extractParagraphsWithClassification at hs
  suffices key : ∀ (bs : List PTextBlock) (counter : Nat),
      s ∈ (extractLoop counter bs).map Paragraph.content → 10 ≤ (stripStr s).length from
    key blocks 0 hs
  intro bs
  induction bs with
  | nil => intro counter h; simp [extractLoop] at h
  | cons b rest ih =>
    intro counter h
    rw [extractLoop_cons] at h
    by_cases hb : (stripStr (cleanText b.text)).length < 10
    · rw [if_pos hb] at h
      exact ih counter h
    · rw [if_neg hb] at h
      rw [List.map_append, List.mem_append] at h
      rcases h with h | h
      · exact mkParagraphs_content_length b _ counter s h
      · exact ih _ h

/-- The block of the `extracted_paragraphs_min_length` witness. -/
def witnessBlocks : List PTextBlock := [⟨"This is a long enough block.", 2, false⟩]

/-- Witness for `extracted_paragraphs_min_length` at a concrete input. -/
theorem extracted_paragraphs_min_length_witness :
    10 ≤ (stripStr "This is a long enough block.").length :=
  extracted_paragraphs_min_length witnessBlocks "This is a long enough block." (by decide)

/-! ## C4 -/

/-- C4: in consensus building, each cluster representative's confidence is
boosted by `min(0.3, 0.05*cluster_size + 0.05*distinct_algorithm_count)`
capped at 1.0, and a representative appears in the consensus output iff its
boosted confidence reaches `min_chapter_confidence`. -/
theorem consensus_boost_and_threshold :
    (∀ (best : Chapter) (group : List DetectionVote),
      (enhanceWithGroupInfo best group).confidence =
        min 1 (best.confidence +
          min (3/10) ((group.length : ℚ) * (1/20) + (distinctAlgoCount group : ℚ) * (1/20)))) ∧
    (∀ (results : List (String × List Chapter × ℚ)) (minConf : ℚ) (ch : Chapter),
      ch ∈ buildConsensus results minConf ↔
        ∃ x xs, (x :: xs) ∈ groupChaptersByProximity (poolVotes results) 2 ∧
          ch = enhanceWithGroupInfo (maxByWeightedConfidence x xs).chapter (x :: xs) ∧
          minConf ≤ ch.confidence) := by
  refine ⟨fun best group => rfl, fun results minConf ch => ?_⟩
  by_cases hv : poolVotes results = []
  · simp only [buildConsensus, if_pos hv, hv]
    simp [groupChaptersByProximity, stableSortByKey]
  · simp only [buildConsensus, if_neg hv]
    rw [List.mem_filterMap]
    constructor
    · rintro ⟨g, hg, hfg⟩
      cases g with
      | nil => exact Option.noConfusion hfg
      | cons x xs =>
        simp only at hfg
        split_ifs at hfg with hconf
        rcases Option.some.inj hfg with rfl
        exact ⟨x, xs, hg, rfl, hconf⟩
    · rintro ⟨x, xs, hg, rfl, hconf⟩
      refine ⟨x :: xs, hg, ?_⟩
      simp only [if_pos hconf]

/-! ## Sorting infrastructure for C1 and C2 -/

/-- Inserting with `insertByKey` permutes: the result is the element on top
of the old list, up to permutation. -/
theorem insertByKey_perm {α : Type} (key : α → Int) (x : α) (l : List α) :
    (insertByKey key x l).Perm (x :: l) := by
  induction l with
  | nil => exact List.Perm.refl _
  | cons y ys ih =>
    unfold insertByKey
    split_ifs with h
    · exact List.Perm.refl _
    · exact (ih.cons y).trans (List.Perm.swap x y ys)

/-- The insertion-sort fold permutes the accumulator and the input. -/
theorem foldl_insertByKey_perm {α : Type} (key : α → Int) (l : List α) :
    ∀ acc : List α,
      (l.foldl (fun acc x => insertByKey key x acc) acc).Perm (acc ++ l) := by
  induction l with
  | nil => intro acc; simp
  | cons x xs ih =>
    intro acc
    simp only [List.foldl_cons]
    exact ((ih (insertByKey key x acc)).trans
      (((insertByKey_perm key x acc).append_right xs).trans List.perm_middle.symm))

/-- `stableSortByKey` permutes its input. -/
theorem stableSortByKey_perm {α : Type} (key : α → Int) (l : List α) :
    (stableSortByKey key l).Perm l := by
  simpa using foldl_insertByKey_perm key l []

/-- `insertByKey` preserves sortedness by the key. -/
theorem insertByKey_pairwise {α : Type} (key : α → Int) (x : α) (l : List α)
    (h : l.Pairwise (fun a b => key a ≤ key b)) :
    (insertByKey key x l).Pairwise (fun a b => key a ≤ key b) := by
  induction l with
  | nil => simp [insertByKey]
  | cons y ys ih =>
    rw [List.pairwise_cons] at h
    unfold insertByKey
    split_ifs with hxy
    · refine List.pairwise_cons.mpr ⟨?_, List.pairwise_cons.mpr h⟩
      intro b hb
      rcases List.mem_cons.mp hb with rfl | hb
      · exact le_of_lt hxy
      · exact (le_of_lt hxy).trans (h.1 b hb)
    · refine List.pairwise_cons.mpr ⟨?_, ih h.2⟩
      intro b hb
      rcases List.mem_cons.mp ((insertByKey_perm key x ys).mem_iff.mp hb) with rfl | hb
      · exact le_of_not_lt hxy
      · exact h.1 b hb

/-- `stableSortByKey` sorts by the key. -/
theorem stableSortByKey_pairwise {α : Type} (key : α → Int) (l : List α) :
    (stableSortByKey key l).Pairwise (fun a b => key a ≤ key b) := by
  suffices h : ∀ (l acc : List α), acc.Pairwise (fun a b => key a ≤ key b) →
      (l.foldl (fun acc x => insertByKey key x acc) acc).Pairwise
        (fun a b => key a ≤ key b) from h l [] (by simp)
  intro l
  induction l with
  | nil => intro acc hacc; simpa using hacc
  | cons x xs ih =>
    intro acc hacc
    simp only [List.foldl_cons]
    exact ih _ (insertByKey_pairwise key x acc hacc)

/-- Two key-sorted permutations of each other with pairwise-distinct keys
are equal. -/
theorem sorted_perm_eq_of_nodup_keys {α : Type} (key : α → Int) :
    ∀ {l₁ l₂ : List α}, l₁.Perm l₂ →
      l₁.Pairwise (fun a b => key a ≤ key b) →
      l₂.Pairwise (fun a b => key a ≤ key b) →
      (l₁.map key).Nodup → l₁ = l₂ := by
  intro l₁
  induction l₁ with
  | nil =>
    intro l₂ hperm _ _ _
    exact (hperm.symm.eq_nil).symm
  | cons a t₁ ih =>
    intro l₂ hperm hp₁ hp₂ hnd
    cases l₂ with
    | nil => exact absurd hperm.eq_nil (by simp)
    | cons b t₂ =>
      have hb1 : b ∈ a :: t₁ := hperm.symm.mem_iff.mp (List.mem_cons_self b t₂)
      have ha2 : a ∈ b :: t₂ := hperm.mem_iff.mp (List.mem_cons_self a t₁)
      have hab : key a = key b := by
        have h1 : key a ≤ key b := by
          rcases List.mem_cons.mp hb1 with rfl | hb
          · exact le_refl _
          · exact (List.pairwise_cons.mp hp₁).1 b hb
        have h2 : key b ≤ key a := by
          rcases List.mem_cons.mp ha2 with heq | ha
          · rw [heq]
          · exact (List.pairwise_cons.mp hp₂).1 a ha
        exact le_antisymm h1 h2
      have hba : b = a := by
        rcases List.mem_cons.mp hb1 with heq | hb
        · exact heq
        · exfalso
          have hmem : key b ∈ t₁.map key := List.mem_map_of_mem key hb
          rw [List.map_cons, List.nodup_cons] at hnd
          exact hnd.1 (hab ▸ hmem)
      subst hba
      have ht : t₁.Perm t₂ := hperm.cons_inv
      rw [ih ht (List.pairwise_cons.mp hp₁).2 (List.pairwise_cons.mp hp₂).2
        (by rw [List.map_cons, List.nodup_cons] at hnd; exact hnd.2)]

/-- Stable sorting two permutations with pairwise-distinct keys gives the
same list. -/
theorem stableSortByKey_eq_of_perm {α : Type} (key : α → Int) (l₁ l₂ : List α)
    (hperm : l₁.Perm l₂) (hnd : (l₁.map key).Nodup) :
    stableSortByKey key l₁ = stableSortByKey key l₂ := by
  apply sorted_perm_eq_of_nodup_keys key
  · exact (stableSortByKey_perm key l₁).trans
      (hperm.trans (stableSortByKey_perm key l₂).symm)
  · exact stableSortByKey_pairwise key l₁
  · exact stableSortByKey_pairwise key l₂
  · exact (((stableSortByKey_perm key l₁).map key).nodup_iff).mpr hnd

/-! ## Field-preservation lemmas for validation (C1) -/

/-- `_adjust_final_confidences` only rewrites confidences: the chapter
numbers are untouched. -/
theorem adjustFinalConfidences_map_number (chapters : List Chapter) :
    (adjustFinalConfidences chapters).map Chapter.number = chapters.map Chapter.number := by
  simp only [adjustFinalConfidences]
  split_ifs with h
  · rfl
  · rw [List.map_map]
    apply List.map_congr_left
    intro ch _
    simp only [Function.comp]
    split_ifs <;> rfl

/-- `_adjust_final_confidences` leaves page numbers untouched. -/
theorem adjustFinalConfidences_map_page (chapters : List Chapter) :
    (adjustFinalConfidences chapters).map Chapter.pageNumber =
      chapters.map Chapter.pageNumber := by
  simp only [adjustFinalConfidences]
  split_ifs with h
  · rfl
  · rw [List.map_map]
    apply List.map_congr_left
    intro ch _
    simp only [Function.comp]
    split_ifs <;> rfl

/-- `_adjust_final_confidences` keeps the list length. -/
theorem adjustFinalConfidences_length (chapters : List Chapter) :
    (adjustFinalConfidences chapters).length = chapters.length := by
  simp only [adjustFinalConfidences]
  split_ifs with h
  · rfl
  · rw [List.length_map]

/-- The numbering loop emits the page numbers unchanged. -/
theorem assignNumbers_map_page (n : Nat) (l : List Chapter) :
    (assignNumbers n l).map Chapter.pageNumber = l.map Chapter.pageNumber := by
  induction l generalizing n with
  | nil => rfl
  | cons ch rest ih => simp [assignNumbers, ih]

/-- The numbering loop emits the numbers `n, n+1, ...`. -/
theorem assignNumbers_map_number (n : Nat) (l : List Chapter) :
    (assignNumbers n l).map Chapter.number = List.range' n l.length := by
  induction l generalizing n with
  | nil => rfl
  | cons ch rest ih => simp [assignNumbers, ih, List.range'_succ]

/-! ## C1 -/

set_option maxRecDepth 40000 in
/-- C1 counterexample: three consensus chapters at pages 1, 20 and 40, where
only pages 1 and 40 carry 100 words.  Validation numbers the sorted chapters
1, 2, 3 *before* dropping the middle one for its low word count, so the
returned chapter numbers are `[1, 3]` — not the gapless `1..N` (= `[1, 2]`)
the claim promises for the 2-element result. -/
theorem validate_and_refine_number_gap :
    ((validateAndRefine gapChapters gapBlocks).map Chapter.number = [1, 3]) ∧
      (validateAndRefine gapChapters gapBlocks).length = 2 ∧
      [1, 3] ≠ List.range' 1 2 := by
  have hval : validateAndRefine gapChapters gapBlocks =
      adjustFinalConfidences (List.filter (fun ch => 100 ≤ ch.wordCount)
        ((assignNumbers 1 (stableSortByKey (fun ch => ch.pageNumber) gapChapters)).map
          (fun ch => { ch with wordCount := calculateChapterWordCount ch gapBlocks }))) := by
    simp only [validateAndRefine]
    rw [if_neg (by decide)]
  refine ⟨?_, ?_, by decide⟩
  · rw [hval, adjustFinalConfidences_map_number]
    rfl
  · rw [hval, adjustFinalConfidences_length]
    rfl

/-- C1 amended: after `_validate_and_refine` the page numbers are
non-decreasing and the chapter numbers are strictly increasing, but they are
positions in the *pre-filter* sorted list (numbering happens before the
minimum-word-count filter), so gaps may remain where chapters were
dropped. -/
theorem validate_and_refine_sorted (chapters : List Chapter) (textBlocks : List TextBlock) :
    ((validateAndRefine chapters textBlocks).map Chapter.pageNumber).Pairwise (· ≤ ·) ∧
      ((validateAndRefine chapters textBlocks).map Chapter.number).Pairwise (· < ·) := by
  by_cases hc : chapters = []
  · simp [validateAndRefine, hc]
  · have hval : validateAndRefine chapters textBlocks =
        adjustFinalConfidences (List.filter (fun ch => 100 ≤ ch.wordCount)
          ((assignNumbers 1 (stableSortByKey (fun ch => ch.pageNumber) chapters)).map
            (fun ch => { ch with wordCount := calculateChapterWordCount ch textBlocks }))) := by
      simp only [validateAndRefine]
      rw [if_neg hc]
    constructor
    · rw [hval, adjustFinalConfidences_map_page]
      apply List.Pairwise.sublist ((List.filter_sublist _).map Chapter.pageNumber)
      rw [List.map_map]
      have hcomp :
          ((assignNumbers 1 (stableSortByKey (fun ch => ch.pageNumber) chapters)).map
            (Chapter.pageNumber ∘
              fun ch => { ch with wordCount := calculateChapterWordCount ch textBlocks })) =
          (assignNumbers 1 (stableSortByKey (fun ch => ch.pageNumber) chapters)).map
            Chapter.pageNumber :=
        List.map_congr_left fun ch _ => rfl
      rw [hcomp, assignNumbers_map_page]
      exact List.pairwise_map.mpr
        (stableSortByKey_pairwise (fun ch => ch.pageNumber) chapters)
    · rw [hval, adjustFinalConfidences_map_number]
      apply List.Pairwise.sublist ((List.filter_sublist _).map Chapter.number)
      rw [List.map_map]
      have hcomp :
          ((assignNumbers 1 (stableSortByKey (fun ch => ch.pageNumber) chapters)).map
            (Chapter.number ∘
              fun ch => { ch with wordCount := calculateChapterWordCount ch textBlocks })) =
          (assignNumbers 1 (stableSortByKey (fun ch => ch.pageNumber) chapters)).map
            Chapter.number :=
        List.map_congr_left fun ch _ => rfl
      rw [hcomp, assignNumbers_map_number]
      exact List.pairwise_lt_range' _ _

/-! ## C2 -/

/-- C2 counterexample: the five algorithm result lists of
`detect_chapters_intelligently` once in pipeline order (`tieResultsA`) and
once with `pattern` moved to the front (`tieResultsB`) — a permutation of
the same (candidate, algorithm, weight) triples.  Both candidates sit on
page 5 and their weighted confidences tie (`0.72*1.0 = 0.8*0.9`), so
Python's first-maximum `max` picks whichever vote was pooled first:
consensus returns the `"Alpha"` chapter for one order and the `"Beta"`
chapter for the other. -/
theorem build_consensus_order_dependent :
    tieResultsA.Perm tieResultsB ∧
      (buildConsensus tieResultsA (7/10)).map Chapter.title = ["Alpha"] ∧
      (buildConsensus tieResultsB (7/10)).map Chapter.title = ["Beta"] := by
  refine ⟨?_, ?_, ?_⟩
  · exact ((List.Perm.swap _ _ _).cons _).trans (List.Perm.swap _ _ _)
  · have h : ¬ (poolVotes tieResultsA = []) := by decide
    simp only [buildConsensus]
    rw [if_neg h]
    simp [tieResultsA, tieChapterA, tieChapterB, mkChapter, poolVotes,
      groupChaptersByProximity, stableSortByKey, insertByKey, groupLoop,
      maxByWeightedConfidence, enhanceWithGroupInfo, mostCommon1, firstDedup, firstDedupGo,
      distinctAlgoCount, List.filterMap_cons, List.count_cons]
    norm_num [min_def]
    decide
  · have h : ¬ (poolVotes tieResultsB = []) := by decide
    simp only [buildConsensus]
    rw [if_neg h]
    simp [tieResultsB, tieChapterA, tieChapterB, mkChapter, poolVotes,
      groupChaptersByProximity, stableSortByKey, insertByKey, groupLoop,
      maxByWeightedConfidence, enhanceWithGroupInfo, mostCommon1, firstDedup, firstDedupGo,
      distinctAlgoCount, List.filterMap_cons, List.count_cons]
    norm_num [min_def]
    decide

/-- C2 amended: consensus building is invariant under reordering of the
algorithm result lists whenever the pooled candidates' page numbers are
pairwise distinct (ties in page number combined with ties in weighted
confidence or title counts are exactly the cases where Python's stable sort,
first-maximum `max` and insertion-ordered `Counter` make the result depend
on the pooling order). -/
theorem build_consensus_perm_invariant (r₁ r₂ : List (String × List Chapter × ℚ))
    (minConf : ℚ) (hperm : r₁.Perm r₂)
    (hnd : ((poolVotes r₁).map (fun v => v.chapter.pageNumber)).Nodup) :
    buildConsensus r₁ minConf = buildConsensus r₂ minConf := by
  have hpool : (poolVotes r₁).Perm (poolVotes r₂) := hperm.flatMap_right _
  have hsort : stableSortByKey (fun v => v.chapter.pageNumber) (poolVotes r₁) =
      stableSortByKey (fun v => v.chapter.pageNumber) (poolVotes r₂) :=
    stableSortByKey_eq_of_perm _ _ _ hpool hnd
  have hgroups : groupChaptersByProximity (poolVotes r₁) 2 =
      groupChaptersByProximity (poolVotes r₂) 2 := by
    unfold groupChaptersByProximity
    rw [hsort]
  by_cases h1 : poolVotes r₁ = []
  · have h2 : poolVotes r₂ = [] := (h1 ▸ hpool).symm.eq_nil
    simp only [buildConsensus, if_pos h1, if_pos h2]
  · have h2 : ¬ poolVotes r₂ = [] := fun h => h1 (h ▸ hpool).eq_nil
    simp only [buildConsensus, if_neg h1, if_neg h2, hgroups]

/-- Algorithm results with pairwise-distinct candidate pages, pipeline
order. -/
def distinctPagesA : List (String × List Chapter × ℚ) :=
  [("toc", [mkChapter "One" 1 (9/10)], 1), ("pattern", [mkChapter "Five" 5 (9/10)], 9/10)]

/-- The same results with the two algorithms exchanged. -/
def distinctPagesB : List (String × List Chapter × ℚ) :=
  [("pattern", [mkChapter "Five" 5 (9/10)], 9/10), ("toc", [mkChapter "One" 1 (9/10)], 1)]

/-- Witness for `build_consensus_perm_invariant` at a concrete input. -/
theorem build_consensus_perm_invariant_witness :
    buildConsensus distinctPagesA (7/10) = buildConsensus distinctPagesB (7/10) :=
  build_consensus_perm_invariant distinctPagesA distinctPagesB (7/10)
    (List.Perm.swap _ _ _) (by decide)

/-! ## Remaining witnesses -/

/-- Witness for `relevance_score_bounds` at a concrete input. -/
theorem relevance_score_bounds_witness :
    5 ≤ calculateRelevanceScore ⟨"", "", none⟩ "" ∧
      calculateRelevanceScore ⟨"", "", none⟩ "" ≤ 17/2 :=
  relevance_score_bounds ⟨"", "", none⟩ ""

/-- Witness for `detect_citation_style_cases` at a concrete input. -/
theorem detect_citation_style_cases_witness : detectCitationStyle 4 0 0 = "apa" :=
  (detect_citation_style_cases 4 0 0).1.mpr ⟨by norm_num, by norm_num, by norm_num⟩

/-- Witness for `validate_citations_eq_filterMap` at a concrete input. -/
theorem validate_citations_eq_filterMap_witness :
    validateCitations dupCitations = dupCitations.filterMap validateOneCitation :=
  (validate_citations_eq_filterMap dupCitations).1

/-- Witness for `validate_and_refine_sorted` at a concrete input. -/
theorem validate_and_refine_sorted_witness :
    ((validateAndRefine [] []).map Chapter.pageNumber).Pairwise (· ≤ ·) ∧
      ((validateAndRefine [] []).map Chapter.number).Pairwise (· < ·) :=
  validate_and_refine_sorted [] []

/-- Witness for `consensus_boost_and_threshold` at a concrete input. -/
theorem consensus_boost_and_threshold_witness :
    (enhanceWithGroupInfo (mkChapter "One" 1 (9/10)) []).confidence =
      min 1 ((mkChapter "One" 1 (9/10)).confidence +
        min (3/10) ((([] : List DetectionVote).length : ℚ) * (1/20) +
          ((distinctAlgoCount []) : ℚ) * (1/20))) :=
  consensus_boost_and_threshold.1 (mkChapter "One" 1 (9/10)) []

end PdfExtractor
